import Mathlib

/-!
Shallow embedding of `scripts/python_scripts/list_iam_users.py`.

The script enumerates IAM users and, for each, builds one report record
(`Details`) from a handful of per-user lookups.  Instants are modelled as
integers counting seconds (the Python code works with timezone-aware
`datetime` values; `timedelta.days` is floor division of the difference in
seconds by 86400).  Fallible API calls are modelled as `Except ApiError`
values; the only error the script distinguishes is `NoSuchEntityException`
(`ApiError.noSuchEntity`).
-/

namespace ListIamUsers

/-- Seconds in a day, the divisor hidden in `timedelta.days`. -/
def secondsPerDay : Int := 86400

/-- Days elapsed from instant `t` to instant `now`: `(now - t).days` in
Python, i.e. floor division of the signed difference by 86400. -/
def daysSinceI (now t : Int) : Int :=
  Int.fdiv (now - t) secondsPerDay

/-- The function days_since from the source (lines 13-17): `None` on a
missing date, otherwise the (possibly negative) floor of the difference in
days. -/
def days_since (now : Int) : Option Int → Option Int
  | none => none
  | some t => some (daysSinceI now t)

/-- Python's `path.strip("/")`: drop every leading and trailing `/`. -/
def stripSlashes (s : String) : String :=
  String.mk (((s.data.dropWhile (fun c => c = '/')).reverse.dropWhile
    (fun c => c = '/')).reverse)

/-- Python's `", ".join(l)`. -/
def joinComma : List String → String
  | [] => ""
  | [a] => a
  | a :: b :: rest => a ++ ", " ++ joinComma (b :: rest)

/-- `", ".join(policies) if policies else "None"` (line 61 of the source). -/
def renderPolicies (l : List String) : String :=
  if l.isEmpty then "None" else joinComma l

/-- Python's `max` on a non-empty list (`none` when the list is empty,
matching the guarded use in the source). -/
def pyMax : List Int → Option Int
  | [] => none
  | d :: ds => some (ds.foldl max d)

/-- One element of `AccessKeyMetadata` as the script uses it. -/
structure AccessKeyMetadata where
  AccessKeyId : String
deriving DecidableEq, Repr

/-- One element of `AttachedPolicies` as the script uses it. -/
structure AttachedPolicy where
  PolicyName : String
deriving DecidableEq, Repr

/-- One element of `Groups` as the script uses it. -/
structure Group where
  GroupName : String
deriving DecidableEq, Repr

/-- The fields of a `list_users` record the script reads. -/
structure IAMUser where
  UserName : String
  Path : String
  PasswordLastUsed : Option Int
deriving DecidableEq, Repr

/-- API failures: the script catches `NoSuchEntityException` on the login
profile probe and lets every other exception escape. -/
inductive ApiError where
  | noSuchEntity
  | other (msg : String)
deriving DecidableEq, Repr

deriving instance DecidableEq for Except

/-- The per-user report record built by `get_user_details`. -/
structure Details where
  User : String
  UserType : String
  TypeOfAccess : String
  Permissions : String
  LastLoginDays : Option Int
  EligibleToRemove : String
deriving DecidableEq, Repr

/-- The five per-user IAM calls `get_user_details` issues, each keyed the
way the script keys it (username or access-key id). -/
structure Lookups where
  get_login_profile : String → Except ApiError Unit
  list_access_keys : String → Except ApiError (List AccessKeyMetadata)
  list_attached_user_policies : String → Except ApiError (List AttachedPolicy)
  list_groups_for_user : String → Except ApiError (List Group)
  get_access_key_last_used : String → Except ApiError (Option Int)

/-- The key-last-used loop (lines 65-70): call
`get_access_key_last_used` for each key in order and collect the dates
that are present; any raised error escapes. -/
def key_used_dates_of (iam : Lookups) : List AccessKeyMetadata → Except ApiError (List Int)
  | [] => Except.ok []
  | k :: ks => do
    let info ← iam.get_access_key_last_used k.AccessKeyId
    let rest ← key_used_dates_of iam ks
    match info with
    | some d => pure (d :: rest)
    | none => pure rest

/-- The eligibility condition of lines 78-81:
`(not login_date or days_since(login_date) >= 90) and
 (not key_used_dates or all(days_since(d) >= 90 for d in key_used_dates))`. -/
def eligibleCond (now : Int) (login_date : Option Int) (key_used_dates : List Int) : Bool :=
  (match login_date with
   | none => true
   | some t => decide (90 ≤ daysSinceI now t))
  && (key_used_dates.isEmpty || key_used_dates.all (fun d => decide (90 ≤ daysSinceI now d)))

/-- The function get_user_details (lines 20-84), as a function of the
current instant, the IAM lookups and the user record. -/
def get_user_details (now : Int) (iam : Lookups) (user : IAMUser) : Except ApiError Details := do
  let username := user.UserName
  let user_path := user.Path
  -- ---- Determine user type from Path ----
  let userType := if stripSlashes user_path = "service" then "Service" else "Local"
  -- ---- Check console access ---- (NoSuchEntity is absorbed, line 42-43)
  let accessAfterLogin ← (match iam.get_login_profile username with
    | Except.ok _ => Except.ok "Console"
    | Except.error ApiError.noSuchEntity => Except.ok "None"
    | Except.error e => Except.error e)
  -- ---- Check CLI access (access keys) ----
  let keys ← iam.list_access_keys username
  let typeOfAccess :=
    if keys.isEmpty then accessAfterLogin
    else if accessAfterLogin = "Console" then "Both" else "CLI"
  -- ---- Permissions (attached policies + groups) ----
  let attached_policies ← iam.list_attached_user_policies username
  let policies := attached_policies.map AttachedPolicy.PolicyName
  let groups ← iam.list_groups_for_user username
  let policies := policies ++ groups.map (fun g => "Group:" ++ g.GroupName)
  let permissions := renderPolicies policies
  -- ---- Last login / API key usage ----
  let login_date := user.PasswordLastUsed
  let key_used_dates ← key_used_dates_of iam keys
  let all_dates := login_date.toList ++ key_used_dates
  let lastLoginDays := (pyMax all_dates).map (daysSinceI now)
  -- ---- Eligibility for removal ----
  let eligible := if eligibleCond now login_date key_used_dates then "Yes" else "No"
  Except.ok {
    User := username
    UserType := userType
    TypeOfAccess := typeOfAccess
    Permissions := permissions
    LastLoginDays := lastLoginDays
    EligibleToRemove := eligible }

/-- The per-user loop of `main` (lines 118-120): build every record,
aborting on the first escaped error with no partial result. -/
def process_users (now : Int) (iam : Lookups) : List IAMUser → Except ApiError (List Details)
  | [] => Except.ok []
  | u :: us => do
    let d ← get_user_details now iam u
    let rest ← process_users now iam us
    pure (d :: rest)

/-!
Environment model.  A `UserWorld` is the IAM account state relevant to one
user.  It also records facts the script never queries — the user's inline
policies and each group's attached policies — because the specification
talks about them; `lookupsOf` answers the script's five calls truthfully
from this state and never fails.
-/

/-- A group together with the policies attached to it.  The script fetches
only the group name; the attached policies exist in the account state but
are never queried. -/
structure GroupFacts where
  GroupName : String
  attachedPolicyNames : List String
deriving DecidableEq, Repr

/-- IAM account state around one user. -/
structure UserWorld where
  loginProfileExists : Bool
  accessKeyIds : List String
  keyLastUsed : String → Option Int
  managedPolicies : List String
  inlinePolicies : List String
  groups : List GroupFacts

/-- The IAM service answering the script's calls from a `UserWorld`,
with "login profile absent" surfacing as `NoSuchEntityException`. -/
def lookupsOf (w : UserWorld) : Lookups where
  get_login_profile := fun _ =>
    if w.loginProfileExists then Except.ok () else Except.error ApiError.noSuchEntity
  list_access_keys := fun _ => Except.ok (w.accessKeyIds.map AccessKeyMetadata.mk)
  list_attached_user_policies := fun _ => Except.ok (w.managedPolicies.map AttachedPolicy.mk)
  list_groups_for_user := fun _ => Except.ok (w.groups.map (fun g => Group.mk g.GroupName))
  get_access_key_last_used := fun kid => Except.ok (w.keyLastUsed kid)

/-- The access-key last-used dates that are present, in key order. -/
def keyDates (w : UserWorld) : List Int :=
  w.accessKeyIds.filterMap w.keyLastUsed

/-- The candidate activity set: the password-last-used date if present,
then every present key-last-used date. -/
def candidateDates (u : IAMUser) (w : UserWorld) : List Int :=
  u.PasswordLastUsed.toList ++ keyDates w

/-- The policy strings the script actually accumulates: managed policy
names, then one `Group:`-tagged entry per group. -/
def codePolicies (w : UserWorld) : List String :=
  w.managedPolicies ++ w.groups.map (fun g => "Group:" ++ g.GroupName)

/-- The record `get_user_details` produces on a fault-free world, field by
field. -/
def detailsOf (now : Int) (w : UserWorld) (u : IAMUser) : Details where
  User := u.UserName
  UserType := if stripSlashes u.Path = "service" then "Service" else "Local"
  TypeOfAccess :=
    if w.accessKeyIds.isEmpty then
      (if w.loginProfileExists then "Console" else "None")
    else
      (if w.loginProfileExists then "Both" else "CLI")
  Permissions := renderPolicies (codePolicies w)
  LastLoginDays := (pyMax (candidateDates u w)).map (daysSinceI now)
  EligibleToRemove :=
    if eligibleCond now u.PasswordLastUsed (keyDates w) then "Yes" else "No"

def c1u : IAMUser := ⟨"alice", "/", some (9 * 86400)⟩

def c1w : UserWorld := ⟨true, ["AK1"], fun _ => some (-20 * 86400), [], [], []⟩

def c1d : Details := ⟨"alice", "Local", "Both", "None", some 91, "Yes"⟩

def c10u : IAMUser := ⟨"bob", "/", some (-91 * 86400)⟩

def c10w : UserWorld := ⟨false, [], fun _ => none, [], [], []⟩

def c10d : Details := ⟨"bob", "Local", "None", "None", some 91, "Yes"⟩

def c3u : IAMUser := ⟨"erin", "/", some (40 * 86400)⟩

def c3w : UserWorld :=
  ⟨false, ["K1", "K2"], fun kid => if kid = "K1" then some (95 * 86400) else none,
    [], [], []⟩

def c3d : Details := ⟨"erin", "Local", "CLI", "None", some 5, "No"⟩

def c5u : IAMUser := ⟨"frank", "/", none⟩

def c5w1 : UserWorld := ⟨true, [], fun _ => none, [], [], []⟩

def c5w2 : UserWorld := ⟨false, ["K"], fun _ => none, [], [], []⟩

def c5w3 : UserWorld := ⟨true, ["K"], fun _ => none, [], [], []⟩

def c5w4 : UserWorld := ⟨false, [], fun _ => none, [], [], []⟩

def c6w : UserWorld := ⟨false, [], fun _ => none, [], [], []⟩

def c6u1 : IAMUser := ⟨"svc", "/service/", none⟩

def c6u2 : IAMUser := ⟨"team", "/service-team/", none⟩

def c6u3 : IAMUser := ⟨"cased", "/Service/", none⟩

/-- The Permissions contents as the specification describes them (a
comparison definition written from the spec's words, for the refinement
claims): managed-policy facts, then inline-policy facts, then for each
group the membership fact followed immediately by that group's attached
policies. -/
def spec_permission_facts (w : UserWorld) : List String :=
  w.managedPolicies ++ w.inlinePolicies
    ++ w.groups.flatMap (fun g => ("Group:" ++ g.GroupName) :: g.attachedPolicyNames)

def c2u : IAMUser := ⟨"dave", "/", none⟩

def c2w : UserWorld :=
  ⟨false, [], fun _ => none, ["M1"], ["I1"], [⟨"G1", ["GP1"]⟩]⟩

def c2wb : UserWorld :=
  ⟨false, [], fun _ => none, ["MA", "MB"], [], [⟨"GA", []⟩, ⟨"GB", []⟩]⟩

def c7u : IAMUser := ⟨"grace", "/", none⟩

def c7w : UserWorld := ⟨false, [], fun _ => none, [], ["OnlyInline"], []⟩

def c7wb : UserWorld := ⟨true, [], fun _ => none, [], [], []⟩

/-- Modelled from the spec: the rendering of the last-activity value to the
sentinels is not in src/scripts/python_scripts/list_iam_users.py (the
script leaves the field as an optional integer); following the spec's
words, the sentinel differentiates "no activity ever recorded" ("Never")
from "activity within the current day" ("Recently") from "N days ago". -/
def renderLastActivity : Option Int → String
  | none => "Never"
  | some n => if n = 0 then "Recently" else toString n

def c4u : IAMUser := ⟨"carol", "/", some 86400⟩

def c4w : UserWorld := ⟨false, [], fun _ => none, [], [], []⟩

def c4ub : IAMUser := ⟨"heidi", "/", some 500⟩

def c8u : IAMUser := ⟨"ivan", "/", none⟩

def c8lkA : Lookups :=
  ⟨fun _ => Except.error ApiError.noSuchEntity, fun _ => Except.ok [],
    fun _ => Except.ok [], fun _ => Except.ok [], fun _ => Except.ok none⟩

def c8lkB : Lookups :=
  ⟨fun _ => Except.error (ApiError.other "AccessDenied"), fun _ => Except.ok [],
    fun _ => Except.ok [], fun _ => Except.ok [], fun _ => Except.ok none⟩

theorem lookupsOf_login (w : UserWorld) (s : String) :
    (lookupsOf w).get_login_profile s
      = if w.loginProfileExists then Except.ok () else Except.error ApiError.noSuchEntity := rfl

theorem lookupsOf_keys (w : UserWorld) (s : String) :
    (lookupsOf w).list_access_keys s
      = Except.ok (w.accessKeyIds.map AccessKeyMetadata.mk) := rfl

theorem lookupsOf_attached (w : UserWorld) (s : String) :
    (lookupsOf w).list_attached_user_policies s
      = Except.ok (w.managedPolicies.map AttachedPolicy.mk) := rfl

theorem lookupsOf_groups (w : UserWorld) (s : String) :
    (lookupsOf w).list_groups_for_user s
      = Except.ok (w.groups.map (fun g => Group.mk g.GroupName)) := rfl

theorem lookupsOf_key_last_used (w : UserWorld) (kid : String) :
    (lookupsOf w).get_access_key_last_used kid = Except.ok (w.keyLastUsed kid) := rfl

theorem key_used_dates_of_lookupsOf (w : UserWorld) (ids : List String) :
    key_used_dates_of (lookupsOf w) (ids.map AccessKeyMetadata.mk)
      = Except.ok (ids.filterMap w.keyLastUsed) := by
  induction ids with
  | nil => rfl
  | cons kid ids ih =>
    simp only [List.map_cons, key_used_dates_of, lookupsOf_key_last_used,
      List.filterMap_cons, Bind.bind, Except.bind, ih]
    cases w.keyLastUsed kid <;> rfl

/-- On a fault-free world the script returns exactly `detailsOf`. -/
theorem get_user_details_lookupsOf (now : Int) (w : UserWorld) (u : IAMUser) :
    get_user_details now (lookupsOf w) u = Except.ok (detailsOf now w u) := by
  cases hlp : w.loginProfileExists <;>
    simp [get_user_details, detailsOf, lookupsOf_login, lookupsOf_keys, lookupsOf_attached,
      lookupsOf_groups, key_used_dates_of_lookupsOf, hlp, Bind.bind, Except.bind,
      candidateDates, keyDates, codePolicies, List.map_eq_nil_iff, List.map_map,
      Function.comp_def]

/-! Helper lemmas. -/

theorem seed_le_foldl_max (ds : List Int) : ∀ d : Int, d ≤ ds.foldl max d := by
  induction ds with
  | nil => intro d; exact le_refl d
  | cons a ds ih =>
    intro d
    rw [List.foldl_cons]
    exact le_trans (le_max_left d a) (ih (max d a))

theorem foldl_max_mem (ds : List Int) : ∀ d : Int, ds.foldl max d ∈ d :: ds := by
  induction ds with
  | nil => intro d; simp
  | cons a ds ih =>
    intro d
    rw [List.foldl_cons]
    rcases List.mem_cons.mp (ih (max d a)) with h1 | h1
    · rcases max_choice d a with hm | hm
      · rw [h1, hm]; exact List.mem_cons_self _ _
      · rw [h1, hm]; exact List.mem_cons_of_mem _ (List.mem_cons_self _ _)
    · exact List.mem_cons_of_mem _ (List.mem_cons_of_mem _ h1)

theorem le_foldl_max (ds : List Int) : ∀ d x : Int, x ∈ d :: ds → x ≤ ds.foldl max d := by
  induction ds with
  | nil =>
    intro d x hx
    rcases List.mem_cons.mp hx with h | h
    · simp [h]
    · simp at h
  | cons a ds ih =>
    intro d x hx
    rw [List.foldl_cons]
    rcases List.mem_cons.mp hx with h | h
    · subst h; exact le_trans (le_max_left x a) (seed_le_foldl_max ds (max x a))
    · rcases List.mem_cons.mp h with h2 | h2
      · subst h2; exact le_trans (le_max_right d x) (seed_le_foldl_max ds (max d x))
      · exact ih (max d a) x (List.mem_cons_of_mem _ h2)

theorem pyMax_mem (ds : List Int) (m : Int) (hm : pyMax ds = some m) : m ∈ ds := by
  cases ds with
  | nil => simp [pyMax] at hm
  | cons d ds =>
    simp only [pyMax, Option.some.injEq] at hm
    exact hm ▸ foldl_max_mem ds d

theorem pyMax_is_ub (ds : List Int) (m : Int) (hm : pyMax ds = some m) :
    ∀ x ∈ ds, x ≤ m := by
  cases ds with
  | nil => simp [pyMax] at hm
  | cons d ds =>
    simp only [pyMax, Option.some.injEq] at hm
    exact fun x hx => hm ▸ le_foldl_max ds d x hx

theorem pyMax_eq_none_iff (ds : List Int) : pyMax ds = none ↔ ds = [] := by
  cases ds <;> simp [pyMax]

theorem pyMax_unique (ds : List Int) (m : Int) (hmem : m ∈ ds) (hub : ∀ x ∈ ds, x ≤ m) :
    pyMax ds = some m := by
  cases ds with
  | nil => simp at hmem
  | cons d ds =>
    simp only [pyMax, Option.some.injEq]
    exact le_antisymm
      (hub _ (foldl_max_mem ds d))
      (le_foldl_max ds d m hmem)

theorem daysSinceI_self (now : Int) : daysSinceI now now = 0 := by
  simp [daysSinceI]

theorem daysSinceI_mono (t now1 now2 : Int) (h : now1 ≤ now2) :
    daysSinceI now1 t ≤ daysSinceI now2 t := by
  unfold daysSinceI secondsPerDay
  rw [Int.fdiv_eq_ediv _ (by decide), Int.fdiv_eq_ediv _ (by decide)]
  exact Int.ediv_le_ediv (by decide) (by omega)

theorem daysSinceI_nonneg (now t : Int) (h : t ≤ now) : 0 ≤ daysSinceI now t :=
  Int.fdiv_nonneg (by omega) (by decide)

theorem daysSinceI_eq_zero (now t : Int) (h1 : t ≤ now) (h2 : now - t < 86400) :
    daysSinceI now t = 0 := by
  unfold daysSinceI secondsPerDay
  rw [Int.fdiv_eq_ediv _ (by decide)]
  exact Int.ediv_eq_zero_of_lt (by omega) h2

theorem joinComma_has_comma (a b : String) (l : List String) :
    ',' ∈ (joinComma (a :: b :: l)).data := by
  show ',' ∈ ((a ++ ", ") ++ joinComma (b :: l)).data
  rw [String.data_append, String.data_append]
  exact List.mem_append.mpr (Or.inl (List.mem_append.mpr (Or.inr (by decide))))

theorem joinComma_ne_NoneStr (l : List String) (hne : l ≠ [])
    (h : ∀ s ∈ l, s ≠ "None") : joinComma l ≠ "None" := by
  match l with
  | [] => exact absurd rfl hne
  | [a] => simpa [joinComma] using h a (by simp)
  | a :: b :: rest =>
    intro hEq
    have hc : ',' ∈ (joinComma (a :: b :: rest)).data := joinComma_has_comma a b rest
    rw [hEq] at hc
    exact absurd hc (by decide)

theorem groupTag_ne_NoneStr (g : String) : "Group:" ++ g ≠ "None" := by
  intro h
  have hlen := congrArg String.length h
  rw [String.length_append] at hlen
  have h6 : String.length "Group:" = 6 := by decide
  have h4 : String.length "None" = 4 := by decide
  omega

theorem renderPolicies_eq_NoneStr_iff (mp : List String) (gs : List GroupFacts)
    (hnone : "None" ∉ mp) :
    renderPolicies (mp ++ gs.map (fun g => "Group:" ++ g.GroupName)) = "None"
      ↔ (mp = [] ∧ gs = []) := by
  constructor
  · intro h
    by_contra hcon
    have hne : mp ++ gs.map (fun g => "Group:" ++ g.GroupName) ≠ [] := by
      intro hnil
      rcases List.append_eq_nil.mp hnil with ⟨h1, h2⟩
      exact hcon ⟨h1, List.map_eq_nil_iff.mp h2⟩
    rw [renderPolicies, if_neg (by simpa [List.isEmpty_iff] using hne)] at h
    refine joinComma_ne_NoneStr _ hne ?_ h
    intro s hs
    rcases List.mem_append.mp hs with hs | hs
    · exact fun hEq => hnone (hEq ▸ hs)
    · rcases List.mem_map.mp hs with ⟨g, _, hEq⟩
      exact hEq ▸ groupTag_ne_NoneStr g.GroupName
  · rintro ⟨h1, h2⟩
    rw [h1, h2]
    rfl

theorem all90_iff (now : Int) (kds : List Int) :
    (kds.isEmpty || kds.all (fun d => decide (90 ≤ daysSinceI now d))) = true
      ↔ ∀ x ∈ kds, 90 ≤ daysSinceI now x := by
  cases kds <;> simp

theorem eligibleCond_iff (now : Int) (pwd : Option Int) (kds : List Int) :
    eligibleCond now pwd kds = true ↔
      ((pwd = none ∨ ∃ t, pwd = some t ∧ 90 ≤ daysSinceI now t)
        ∧ ∀ x ∈ kds, 90 ≤ daysSinceI now x) := by
  unfold eligibleCond
  rw [Bool.and_eq_true, all90_iff]
  cases pwd with
  | none => simp
  | some t => simp

theorem keyDates_forall_iff (now : Int) (w : UserWorld) :
    (∀ x ∈ keyDates w, 90 ≤ daysSinceI now x)
      ↔ ∀ kid ∈ w.accessKeyIds, ∀ t, w.keyLastUsed kid = some t →
          90 ≤ daysSinceI now t := by
  unfold keyDates
  constructor
  · intro h kid hkid t ht
    exact h t (List.mem_filterMap.mpr ⟨kid, hkid, ht⟩)
  · intro h x hx
    rcases List.mem_filterMap.mp hx with ⟨kid, hkid, hkt⟩
    exact h kid hkid x hkt

/-! Claims. -/

/-- C1: EligibleForRemoval is "Yes" if and only if (a) the password-last-used
timestamp is absent or at least 90 days old, and (b) every access-key
last-used timestamp that is present is at least 90 days old — the second
conjunct holding vacuously when no key has a recorded last use, so a key
with no recorded use, or the absence of any key, never blocks eligibility. -/
theorem c1_eligible_iff (now : Int) (w : UserWorld) (u : IAMUser) (d : Details)
    (hd : get_user_details now (lookupsOf w) u = Except.ok d) :
    d.EligibleToRemove = "Yes" ↔
      ((u.PasswordLastUsed = none ∨
          ∃ t, u.PasswordLastUsed = some t ∧ 90 ≤ daysSinceI now t)
        ∧ ∀ kid ∈ w.accessKeyIds, ∀ t, w.keyLastUsed kid = some t →
            90 ≤ daysSinceI now t) := by
  rw [get_user_details_lookupsOf] at hd
  simp only [Except.ok.injEq] at hd
  subst hd
  rw [← keyDates_forall_iff, ← eligibleCond_iff now u.PasswordLastUsed (keyDates w)]
  simp only [detailsOf]
  cases hc : eligibleCond now u.PasswordLastUsed (keyDates w) <;> simp [hc]

theorem c1_witness : c1d.EligibleToRemove = "Yes" :=
  (c1_eligible_iff (100 * 86400) c1w c1u c1d (by decide)).mpr
    ⟨Or.inr ⟨9 * 86400, rfl, by decide⟩, by
      intro kid hkid t ht
      simp only [c1w] at ht
      injection ht with h
      subst h
      decide⟩

/-- C10: a record with EligibleForRemoval "Yes" never reports a most-recent
activity fewer than 90 days old: its LastLoginDays is either null or at
least 90. -/
theorem c10_eligible_stale (now : Int) (w : UserWorld) (u : IAMUser) (d : Details)
    (hd : get_user_details now (lookupsOf w) u = Except.ok d)
    (he : d.EligibleToRemove = "Yes") :
    d.LastLoginDays = none ∨ ∃ n, d.LastLoginDays = some n ∧ 90 ≤ n := by
  rw [get_user_details_lookupsOf] at hd
  simp only [Except.ok.injEq] at hd
  subst hd
  simp only [detailsOf] at he ⊢
  cases hc : eligibleCond now u.PasswordLastUsed (keyDates w) with
  | false => rw [hc] at he; simp at he
  | true =>
    have hiff := (eligibleCond_iff now u.PasswordLastUsed (keyDates w)).mp hc
    cases hmax : pyMax (candidateDates u w) with
    | none => left; simp [hmax]
    | some m =>
      right
      refine ⟨daysSinceI now m, by simp [hmax], ?_⟩
      have hmem := pyMax_mem _ _ hmax
      unfold candidateDates at hmem
      rcases List.mem_append.mp hmem with hm | hm
      · cases hp : u.PasswordLastUsed with
        | none => rw [hp] at hm; simp at hm
        | some t =>
          rw [hp] at hm
          simp only [Option.toList_some, List.mem_singleton] at hm
          subst hm
          rcases hiff.1 with h | ⟨t', ht', h90⟩
          · rw [hp] at h; exact absurd h (by simp)
          · rw [hp] at ht'
            simp only [Option.some.injEq] at ht'
            exact ht' ▸ h90
      · exact hiff.2 m hm

theorem c10_witness :
    c10d.LastLoginDays = none ∨ ∃ n, c10d.LastLoginDays = some n ∧ 90 ≤ n :=
  c10_eligible_stale 0 c10w c10u c10d (by decide) (by decide)

/-- C3: the candidate set — the password-last-used timestamp (when present)
followed by every access key's present last-used timestamp — determines
LastLoginDays: null exactly when the set is empty, and daysSince of the
maximum of the set otherwise. -/
theorem c3_last_activity (now : Int) (w : UserWorld) (u : IAMUser) (d : Details)
    (hd : get_user_details now (lookupsOf w) u = Except.ok d) :
    (d.LastLoginDays = none ↔ candidateDates u w = [])
      ∧ (∀ m, m ∈ candidateDates u w → (∀ x ∈ candidateDates u w, x ≤ m) →
          d.LastLoginDays = some (daysSinceI now m)) := by
  rw [get_user_details_lookupsOf] at hd
  simp only [Except.ok.injEq] at hd
  subst hd
  constructor
  · simp only [detailsOf, Option.map_eq_none', pyMax_eq_none_iff]
  · intro m hmem hub
    simp [detailsOf, pyMax_unique _ m hmem hub]

theorem c3_witness : c3d.LastLoginDays = some (daysSinceI (100 * 86400) (95 * 86400)) :=
  (c3_last_activity (100 * 86400) c3w c3u c3d (by decide)).2 (95 * 86400)
    (by decide) (by decide)

/-- C5: AccessType starts at "None", becomes "Console" when a login profile
exists, and a non-empty access-key list upgrades it ("Console" to "Both",
"None" to "CLI"); so profile without keys gives "Console", keys without
profile give "CLI", both give "Both", neither gives "None". -/
theorem c5_access_type (now : Int) (w : UserWorld) (u : IAMUser) (d : Details)
    (hd : get_user_details now (lookupsOf w) u = Except.ok d) :
    d.TypeOfAccess =
      if w.loginProfileExists then
        (if w.accessKeyIds = [] then "Console" else "Both")
      else
        (if w.accessKeyIds = [] then "None" else "CLI") := by
  rw [get_user_details_lookupsOf] at hd
  simp only [Except.ok.injEq] at hd
  subst hd
  cases hlp : w.loginProfileExists <;> cases hks : w.accessKeyIds <;>
    simp [detailsOf, hlp, hks]

theorem c5_witness :
    (⟨"frank", "Local", "Console", "None", none, "Yes"⟩ : Details).TypeOfAccess = "Console"
      ∧ (⟨"frank", "Local", "CLI", "None", none, "Yes"⟩ : Details).TypeOfAccess = "CLI"
      ∧ (⟨"frank", "Local", "Both", "None", none, "Yes"⟩ : Details).TypeOfAccess = "Both"
      ∧ (⟨"frank", "Local", "None", "None", none, "Yes"⟩ : Details).TypeOfAccess = "None" :=
  ⟨c5_access_type 0 c5w1 c5u _ (by decide), c5_access_type 0 c5w2 c5u _ (by decide),
    c5_access_type 0 c5w3 c5u _ (by decide), c5_access_type 0 c5w4 c5u _ (by decide)⟩

/-- C6: UserType is "Service" exactly when the path, stripped of leading and
trailing slashes, equals the literal "service" (case-sensitively), and is
"Local" otherwise. -/
theorem c6_user_type (now : Int) (w : UserWorld) (u : IAMUser) (d : Details)
    (hd : get_user_details now (lookupsOf w) u = Except.ok d) :
    (d.UserType = "Service" ↔ stripSlashes u.Path = "service")
      ∧ (d.UserType = "Service" ∨ d.UserType = "Local") := by
  rw [get_user_details_lookupsOf] at hd
  simp only [Except.ok.injEq] at hd
  subst hd
  by_cases h : stripSlashes u.Path = "service" <;> simp [detailsOf, h]

theorem c6_witness :
    (⟨"svc", "Service", "None", "None", none, "Yes"⟩ : Details).UserType = "Service"
      ∧ (⟨"team", "Local", "None", "None", none, "Yes"⟩ : Details).UserType = "Local"
      ∧ (⟨"cased", "Local", "None", "None", none, "Yes"⟩ : Details).UserType = "Local" := by
  refine ⟨(c6_user_type 0 c6w c6u1 _ (by decide)).1.mpr (by decide), ?_, ?_⟩
  · have h := c6_user_type 0 c6w c6u2 ⟨"team", "Local", "None", "None", none, "Yes"⟩ (by decide)
    exact h.2.resolve_left (fun hs => absurd (h.1.mp hs) (by decide))
  · have h := c6_user_type 0 c6w c6u3 ⟨"cased", "Local", "None", "None", none, "Yes"⟩ (by decide)
    exact h.2.resolve_left (fun hs => absurd (h.1.mp hs) (by decide))

/-- C9: for a fixed timestamp, days_since is monotonically non-decreasing as
the "now" reference moves forward, and days_since of the reference instant
itself is 0. -/
theorem c9_days_since_mono (t now now1 now2 a b : Int) (h : now1 ≤ now2)
    (ha : days_since now1 (some t) = some a)
    (hb : days_since now2 (some t) = some b) :
    a ≤ b ∧ days_since now (some now) = some 0 := by
  simp only [days_since, Option.some.injEq] at ha hb
  subst ha
  subst hb
  exact ⟨daysSinceI_mono t now1 now2 h, by simp [days_since, daysSinceI_self]⟩

theorem c9_witness : (0 : Int) ≤ 2 ∧ days_since 5 (some 5) = some 0 :=
  c9_days_since_mono 40000 5 86400 (3 * 86400) 0 2 (by decide) (by decide) (by decide)

/-- C2 counterexample: on a user with managed policy M1, inline policy I1
and group G1 carrying policy GP1, the script's Permissions field is
"M1, Group:G1" while the claimed concatenation (managed, then inline, then
per-group membership and group policies) renders as
"M1, I1, Group:G1, GP1" — the inline and group-attached facts never appear
because the script never fetches them. -/
theorem c2_counterexample :
    (get_user_details 0 (lookupsOf c2w) c2u).map Details.Permissions
        = Except.ok "M1, Group:G1"
      ∧ renderPolicies (spec_permission_facts c2w) = "M1, I1, Group:G1, GP1"
      ∧ ("M1, Group:G1" : String) ≠ "M1, I1, Group:G1, GP1" := by
  refine ⟨by decide, by decide, by decide⟩

/-- C2 amended: the Permissions field is the comma-join of, in order, the
managed-policy names followed by one "Group:"-tagged membership fact per
group (in listing order); inline-policy facts and group-attached-policy
facts are not retrieved and never appear. -/
theorem c2_permissions_order (now : Int) (w : UserWorld) (u : IAMUser) (d : Details)
    (hd : get_user_details now (lookupsOf w) u = Except.ok d) :
    d.Permissions = renderPolicies
      (w.managedPolicies ++ w.groups.map (fun g => "Group:" ++ g.GroupName)) := by
  rw [get_user_details_lookupsOf] at hd
  simp only [Except.ok.injEq] at hd
  subst hd
  simp [detailsOf, codePolicies]

theorem c2_witness :
    (⟨"dave", "Local", "None", "MA, MB, Group:GA, Group:GB", none, "Yes"⟩
        : Details).Permissions
      = renderPolicies
          (c2wb.managedPolicies ++ c2wb.groups.map (fun g => "Group:" ++ g.GroupName)) :=
  c2_permissions_order 0 c2wb c2u _ (by decide)

/-- C7 counterexample: a user whose only permission fact is the inline
policy OnlyInline still gets the sentinel "None", because the script never
fetches inline policies — so "Permissions is None iff the managed, inline,
group and group-attached fact lists are all empty" fails. -/
theorem c7_counterexample :
    (get_user_details 0 (lookupsOf c7w) c7u).map Details.Permissions
        = Except.ok "None"
      ∧ ¬(c7w.managedPolicies = [] ∧ c7w.inlinePolicies = []
            ∧ c7w.groups = []
            ∧ c7w.groups.flatMap GroupFacts.attachedPolicyNames = []) := by
  refine ⟨by decide, by decide⟩

/-- C7 amended: provided no attached managed policy is literally named
"None", the Permissions field is the sentinel "None" exactly when the
managed-policy list and the group list are both empty; the inline-policy
and group-attached-policy facts are never consulted. -/
theorem c7_permissions_none_iff (now : Int) (w : UserWorld) (u : IAMUser) (d : Details)
    (hd : get_user_details now (lookupsOf w) u = Except.ok d)
    (hnone : "None" ∉ w.managedPolicies) :
    d.Permissions = "None" ↔ (w.managedPolicies = [] ∧ w.groups = []) := by
  rw [get_user_details_lookupsOf] at hd
  simp only [Except.ok.injEq] at hd
  subst hd
  simp only [detailsOf, codePolicies]
  exact renderPolicies_eq_NoneStr_iff w.managedPolicies w.groups hnone

theorem c7_witness :
    (⟨"grace", "Local", "Console", "None", none, "Yes"⟩ : Details).Permissions = "None" :=
  (c7_permissions_none_iff 0 c7wb c7u _ (by decide) (by decide)).mpr ⟨rfl, rfl⟩

/-- C4 counterexample: a password-last-used instant one day ahead of the
"now" reference (clock skew) yields LastLoginDays = -1, a negative value,
so "LastActivityDays is a non-negative integer whenever some activity
timestamp is recorded" is false as stated. -/
theorem c4_counterexample :
    (get_user_details 0 (lookupsOf c4w) c4u).map Details.LastLoginDays
        = Except.ok (some (-1))
      ∧ ((-1 : Int) < 0) := by
  refine ⟨by decide, by decide⟩

/-- C4 amended: when every recorded activity timestamp is no later than the
"now" reference, a principal with at least one recorded timestamp gets a
non-negative LastLoginDays; the null value (rendered "Never") marks "no
activity ever recorded", and activity within the current day yields the
integer 0 (rendered "Recently") rather than a positive day count. -/
theorem c4_last_activity_encoding (now : Int) (w : UserWorld) (u : IAMUser) (d : Details)
    (hd : get_user_details now (lookupsOf w) u = Except.ok d)
    (hpast : ∀ t ∈ candidateDates u w, t ≤ now) :
    (candidateDates u w = [] →
        d.LastLoginDays = none ∧ renderLastActivity d.LastLoginDays = "Never")
      ∧ (candidateDates u w ≠ [] → ∃ n, d.LastLoginDays = some n ∧ 0 ≤ n)
      ∧ (∀ m ∈ candidateDates u w, (∀ x ∈ candidateDates u w, x ≤ m) →
          now - m < 86400 →
            d.LastLoginDays = some 0
              ∧ renderLastActivity d.LastLoginDays = "Recently") := by
  rw [get_user_details_lookupsOf] at hd
  simp only [Except.ok.injEq] at hd
  subst hd
  refine ⟨?_, ?_, ?_⟩
  · intro hc
    have hmax : pyMax (candidateDates u w) = none := (pyMax_eq_none_iff _).mpr hc
    simp [detailsOf, hmax, renderLastActivity]
  · intro hc
    cases hmax : pyMax (candidateDates u w) with
    | none => exact absurd ((pyMax_eq_none_iff _).mp hmax) hc
    | some m =>
      refine ⟨daysSinceI now m, by simp [detailsOf, hmax], ?_⟩
      exact daysSinceI_nonneg now m (hpast m (pyMax_mem _ _ hmax))
  · intro m hmem hub hday
    have hmax : pyMax (candidateDates u w) = some m := pyMax_unique _ m hmem hub
    have hz : daysSinceI now m = 0 := daysSinceI_eq_zero now m (hpast m hmem) hday
    simp [detailsOf, hmax, hz, renderLastActivity]

theorem c4_witness :
    (⟨"heidi", "Local", "None", "None", some 0, "No"⟩ : Details).LastLoginDays = some 0
      ∧ renderLastActivity
          (⟨"heidi", "Local", "None", "None", some 0, "No"⟩ : Details).LastLoginDays
        = "Recently" :=
  (c4_last_activity_encoding 1000 c4w c4ub _ (by decide) (by decide)).2.2
    500 (by decide) (by decide) (by decide)

/-- C8: a NoSuchEntity answer from the login-profile probe is absorbed as
normal control flow (console access false, the record still produced),
while any other failure of a per-user lookup — login profile, access keys,
attached policies, groups, or key-last-used — propagates out of
get_user_details, and one failing user aborts the whole run with no
partial per-user result. -/
theorem c8_error_handling (now : Int) (lk : Lookups) (u : IAMUser) :
    (lk.get_login_profile u.UserName = Except.error ApiError.noSuchEntity →
      ∀ keys ap gs kds,
        lk.list_access_keys u.UserName = Except.ok keys →
        lk.list_attached_user_policies u.UserName = Except.ok ap →
        lk.list_groups_for_user u.UserName = Except.ok gs →
        key_used_dates_of lk keys = Except.ok kds →
        ∃ d, get_user_details now lk u = Except.ok d
          ∧ (d.TypeOfAccess = "None" ∨ d.TypeOfAccess = "CLI"))
    ∧ (∀ m, lk.get_login_profile u.UserName = Except.error (ApiError.other m) →
        get_user_details now lk u = Except.error (ApiError.other m))
    ∧ ((lk.get_login_profile u.UserName = Except.ok ()
          ∨ lk.get_login_profile u.UserName = Except.error ApiError.noSuchEntity) →
        ∀ e, lk.list_access_keys u.UserName = Except.error e →
          get_user_details now lk u = Except.error e)
    ∧ ((lk.get_login_profile u.UserName = Except.ok ()
          ∨ lk.get_login_profile u.UserName = Except.error ApiError.noSuchEntity) →
        ∀ keys e, lk.list_access_keys u.UserName = Except.ok keys →
          lk.list_attached_user_policies u.UserName = Except.error e →
          get_user_details now lk u = Except.error e)
    ∧ ((lk.get_login_profile u.UserName = Except.ok ()
          ∨ lk.get_login_profile u.UserName = Except.error ApiError.noSuchEntity) →
        ∀ keys ap e, lk.list_access_keys u.UserName = Except.ok keys →
          lk.list_attached_user_policies u.UserName = Except.ok ap →
          lk.list_groups_for_user u.UserName = Except.error e →
          get_user_details now lk u = Except.error e)
    ∧ ((lk.get_login_profile u.UserName = Except.ok ()
          ∨ lk.get_login_profile u.UserName = Except.error ApiError.noSuchEntity) →
        ∀ keys ap gs e, lk.list_access_keys u.UserName = Except.ok keys →
          lk.list_attached_user_policies u.UserName = Except.ok ap →
          lk.list_groups_for_user u.UserName = Except.ok gs →
          key_used_dates_of lk keys = Except.error e →
          get_user_details now lk u = Except.error e)
    ∧ (∀ keys : List AccessKeyMetadata,
        (∃ k, k ∈ keys ∧ ∃ e, lk.get_access_key_last_used k.AccessKeyId
            = Except.error e) →
        ∃ e, key_used_dates_of lk keys = Except.error e)
    ∧ (∀ users : List IAMUser,
        (∃ v, v ∈ users ∧ ∃ e, get_user_details now lk v = Except.error e) →
        ∃ e, process_users now lk users = Except.error e) := by
  refine ⟨?_, ?_, ?_, ?_, ?_, ?_, ?_, ?_⟩
  · intro hlp keys ap gs kds hk hap hgs hkds
    have hrun : get_user_details now lk u = Except.ok
        { User := u.UserName
          UserType := if stripSlashes u.Path = "service" then "Service" else "Local"
          TypeOfAccess :=
            if keys.isEmpty then "None"
            else if ("None" : String) = "Console" then "Both" else "CLI"
          Permissions := renderPolicies (ap.map AttachedPolicy.PolicyName
            ++ gs.map (fun g => "Group:" ++ g.GroupName))
          LastLoginDays := (pyMax (u.PasswordLastUsed.toList ++ kds)).map (daysSinceI now)
          EligibleToRemove :=
            if eligibleCond now u.PasswordLastUsed kds then "Yes" else "No" } := by
      simp [get_user_details, hlp, hk, hap, hgs, hkds, Bind.bind, Except.bind]
    refine ⟨_, hrun, ?_⟩
    cases keys with
    | nil => exact Or.inl rfl
    | cons a ks => exact Or.inr rfl
  · intro m h
    simp [get_user_details, h, Bind.bind, Except.bind]
  · rintro (hlp | hlp) e hk <;>
      simp [get_user_details, hlp, hk, Bind.bind, Except.bind]
  · rintro (hlp | hlp) keys e hk hap <;>
      simp [get_user_details, hlp, hk, hap, Bind.bind, Except.bind]
  · rintro (hlp | hlp) keys ap e hk hap hgs <;>
      simp [get_user_details, hlp, hk, hap, hgs, Bind.bind, Except.bind]
  · rintro (hlp | hlp) keys ap gs e hk hap hgs hkds <;>
      simp [get_user_details, hlp, hk, hap, hgs, hkds, Bind.bind, Except.bind]
  · intro keys
    induction keys with
    | nil =>
      rintro ⟨k, hk, -⟩
      simp at hk
    | cons a ks ih =>
      rintro ⟨k, hk, e, he⟩
      rcases List.mem_cons.mp hk with rfl | hks
      · exact ⟨e, by simp [key_used_dates_of, he, Bind.bind, Except.bind]⟩
      · cases hga : lk.get_access_key_last_used a.AccessKeyId with
        | error e2 =>
          exact ⟨e2, by simp [key_used_dates_of, hga, Bind.bind, Except.bind]⟩
        | ok info =>
          rcases ih ⟨k, hks, e, he⟩ with ⟨e3, he3⟩
          exact ⟨e3, by simp [key_used_dates_of, hga, he3, Bind.bind, Except.bind]⟩
  · intro users
    induction users with
    | nil =>
      rintro ⟨v, hv, -⟩
      simp at hv
    | cons a us ih =>
      rintro ⟨v, hv, e, he⟩
      rcases List.mem_cons.mp hv with rfl | hvus
      · exact ⟨e, by simp [process_users, he, Bind.bind, Except.bind]⟩
      · cases hga : get_user_details now lk a with
        | error e2 =>
          exact ⟨e2, by simp [process_users, hga, Bind.bind, Except.bind]⟩
        | ok d0 =>
          rcases ih ⟨v, hvus, e, he⟩ with ⟨e3, he3⟩
          exact ⟨e3, by simp [process_users, hga, he3, Bind.bind, Except.bind]⟩

theorem c8_witness :
    (∃ d, get_user_details 0 c8lkA c8u = Except.ok d
        ∧ (d.TypeOfAccess = "None" ∨ d.TypeOfAccess = "CLI"))
      ∧ get_user_details 0 c8lkB c8u = Except.error (ApiError.other "AccessDenied")
      ∧ (∃ e, process_users 0 c8lkB [c8u] = Except.error e) := by
  refine ⟨(c8_error_handling 0 c8lkA c8u).1 (by decide) [] [] [] [] (by decide)
      (by decide) (by decide) (by decide),
    (c8_error_handling 0 c8lkB c8u).2.1 "AccessDenied" (by decide),
    (c8_error_handling 0 c8lkB c8u).2.2.2.2.2.2.2 [c8u]
      ⟨c8u, by simp, ApiError.other "AccessDenied",
        (c8_error_handling 0 c8lkB c8u).2.1 "AccessDenied" (by decide)⟩⟩

end ListIamUsers
